import Mathlib

/-!
Shallow embedding of the `alx-backend-graphql_crm` repository: the CRM data
model, the GraphQL mutations of `crm/schema.py`, the query resolvers, the
filter method of `crm/filters.py`, and the schema composition of
`alx_backend_graphql/schema.py`.

The database is modelled as explicit state (lists of rows plus auto-increment
counters); each mutation is a function from the state to the new state paired
with an `Except String` result, where `Except.error` models a raised Python
exception carrying the given message string.
-/

deriving instance DecidableEq for Except

namespace CRM

/-- Modelled from the spec: `crm/models.py` is not among the source files; the
spec (§3) lists a Customer as name, email (unique), phone (optional), plus a
creation timestamp that no claim mentions. -/
structure Customer where
  id : Nat
  name : String
  email : String
  phone : Option String
deriving DecidableEq

/-- Modelled from the spec: `crm/models.py` is not among the source files; the
spec (§3) lists a Product as name, price (a decimal amount; modelled as an
integer count of minor currency units, over which the source's comparisons
with zero and summations carry over verbatim), and stock quantity. -/
structure Product where
  id : Nat
  name : String
  price : Int
  stock : Int
deriving DecidableEq

/-- Modelled from the spec: `crm/models.py` is not among the source files; the
spec (§3) lists an Order as a reference to one customer, a many-to-many
reference to products, a total amount, and an order timestamp (modelled as
`Nat`). -/
structure Order where
  id : Nat
  customerId : Nat
  productIds : List Nat
  totalAmount : Int
  orderDate : Nat
deriving DecidableEq

/-- The relational database state: one table per entity plus the
auto-increment primary-key counters maintained by the ORM. -/
structure DB where
  customers : List Customer
  products : List Product
  orders : List Order
  nextCustomerId : Nat
  nextProductId : Nat
  nextOrderId : Nat
deriving DecidableEq

/-- Modelled from the spec: the regular-expression engine is Python's `re`
standard library, not code of this repository. In a str pattern `\d` matches
any Unicode decimal digit (category Nd); these are the Nd code-point ranges. -/
def ndRanges : List (Nat × Nat) :=
  [(48, 57), (1632, 1641), (1776, 1785), (1984, 1993), (2406, 2415),
   (2534, 2543), (2662, 2671), (2790, 2799), (2918, 2927), (3046, 3055),
   (3174, 3183), (3302, 3311), (3430, 3439), (3558, 3567), (3664, 3673),
   (3792, 3801), (3872, 3881), (4160, 4169), (4240, 4249), (6112, 6121),
   (6160, 6169), (6470, 6479), (6608, 6617), (6784, 6793), (6800, 6809),
   (6992, 7001), (7088, 7097), (7232, 7241), (7248, 7257), (42528, 42537),
   (43216, 43225), (43264, 43273), (43472, 43481), (43504, 43513),
   (43600, 43609), (44016, 44025), (65296, 65305), (66720, 66729),
   (68912, 68921), (69734, 69743), (69872, 69881), (69942, 69951),
   (70096, 70105), (70384, 70393), (70736, 70745), (70864, 70873),
   (71248, 71257), (71360, 71369), (71472, 71481), (71904, 71913),
   (72016, 72025), (72784, 72793), (73040, 73049), (73120, 73129),
   (92768, 92777), (92864, 92873), (93008, 93017), (120782, 120831),
   (123200, 123209), (123632, 123641), (125264, 125273), (130032, 130041)]

/-- A character matched by `\d` in a Python str pattern: any Unicode decimal
digit. -/
def isREDigit (c : Char) : Bool :=
  ndRanges.any fun r => decide (r.1 ≤ c.toNat) && decide (c.toNat ≤ r.2)

/-- `PHONE_REGEX`, first alternative `\+\d{10,15}`: a leading plus followed
by 10 to 15 decimal digits. -/
def phoneIntl (cs : List Char) : Bool :=
  match cs with
  | [] => false
  | c :: rest =>
      c == '+' && decide (10 ≤ rest.length) && decide (rest.length ≤ 15)
        && rest.all isREDigit

/-- `PHONE_REGEX`, second alternative `\d{3}-\d{3}-\d{4}`: three decimal
digits, a dash, three digits, a dash, four digits. -/
def phoneDashed (cs : List Char) : Bool :=
  match cs with
  | [a, b, c, d, e, f, g, h, i, j, k, l] =>
      isREDigit a && isREDigit b && isREDigit c && d == '-' && isREDigit e
        && isREDigit f && isREDigit g && h == '-' && isREDigit i && isREDigit j
        && isREDigit k && isREDigit l
  | _ => false

/-- Python's `$` (without `re.MULTILINE`) matches at the end of the string or
just before one newline at the very end, so the text the anchored alternatives
must cover is the string less one final newline when present. -/
def bodyOf (cs : List Char) : List Char :=
  if cs.getLast? = some '\n' then cs.dropLast else cs

/-- The truthiness of `PHONE_REGEX.match(s)` for
`^(\+\d{10,15}|\d{3}-\d{3}-\d{4})$`: `re.match` anchors at the start
(making `^` redundant); both alternatives end in `\d`, which never matches a
newline, so the whole pattern accepts exactly an alternative applied to the
string less an optional single trailing newline. -/
def PHONE_REGEX_match (s : String) : Bool :=
  phoneIntl (bodyOf s.data) || phoneDashed (bodyOf s.data)

/-- `validate_phone`: raises "Invalid phone format" when the phone is truthy
(present and non-empty) and does not match `PHONE_REGEX`. -/
def validate_phone (phone : Option String) : Except String Unit :=
  match phone with
  | none => Except.ok ()
  | some s =>
      if s.length != 0 && !PHONE_REGEX_match s then
        Except.error "Invalid phone format"
      else
        Except.ok ()

/-- `CreateCustomer.mutate`: reject a duplicate email, validate the phone,
then insert the customer and return it with a success message. -/
def createCustomer (db : DB) (name email : String) (phone : Option String) :
    DB × Except String (Customer × String) :=
  if db.customers.any (fun c => c.email == email) then
    (db, Except.error "Email already exists")
  else
    match validate_phone phone with
    | Except.error e => (db, Except.error e)
    | Except.ok _ =>
        let customer : Customer :=
          { id := db.nextCustomerId, name := name, email := email, phone := phone }
        ({ db with
            customers := db.customers ++ [customer],
            nextCustomerId := db.nextCustomerId + 1 },
         Except.ok (customer, "Customer created successfully"))

/-- One row of the `BulkCreateCustomers` input list. -/
structure CustomerInput where
  name : String
  email : String
  phone : Option String
deriving DecidableEq

/-- The body of one iteration of the `BulkCreateCustomers.mutate` loop: the
same duplicate-email check, phone validation and insert as `CreateCustomer`. -/
def bulkRow (db : DB) (data : CustomerInput) : DB × Except String Customer :=
  if db.customers.any (fun c => c.email == data.email) then
    (db, Except.error "Email already exists")
  else
    match validate_phone data.phone with
    | Except.error e => (db, Except.error e)
    | Except.ok _ =>
        let customer : Customer :=
          { id := db.nextCustomerId, name := data.name, email := data.email,
            phone := data.phone }
        ({ db with
            customers := db.customers ++ [customer],
            nextCustomerId := db.nextCustomerId + 1 },
         Except.ok customer)

/-- The `for idx, data in enumerate(input)` loop of `BulkCreateCustomers.mutate`
(`idx` is the zero-based index): each row failure is caught and recorded as
`f"Row {idx + 1}: {str(e)}"`, so no exception ever escapes the surrounding
`transaction.atomic()` block and the transaction commits; the loop is
therefore a total function on the state. -/
def bulkLoop (db : DB) (idx : Nat) : List CustomerInput → DB × List Customer × List String
  | [] => (db, [], [])
  | data :: rest =>
      match bulkRow db data with
      | (db1, Except.ok c) =>
          let r := bulkLoop db1 (idx + 1) rest
          (r.1, c :: r.2.1, r.2.2)
      | (db1, Except.error e) =>
          let r := bulkLoop db1 (idx + 1) rest
          (r.1, r.2.1, ("Row " ++ toString (idx + 1) ++ ": " ++ e) :: r.2.2)

/-- `BulkCreateCustomers.mutate`: run the loop from index 0 and return the
created customers and the collected per-row error strings. -/
def bulkCreateCustomers (db : DB) (input : List CustomerInput) :
    DB × List Customer × List String :=
  bulkLoop db 0 input

/-- The database state after the first `n` rows of a bulk call have been
processed (used to state which rows of a bulk call are valid at their turn). -/
def bulkDBAt (db : DB) : List CustomerInput → DB
  | [] => db
  | data :: rest => bulkDBAt (bulkRow db data).1 rest

/-- `CreateProduct.mutate`: reject a non-positive price, then a negative
stock, then insert the product (Python default `stock=0` is supplied by the
caller). -/
def createProduct (db : DB) (name : String) (price : Int) (stock : Int) :
    DB × Except String Product :=
  if price ≤ 0 then
    (db, Except.error "Price must be positive")
  else if stock < 0 then
    (db, Except.error "Stock cannot be negative")
  else
    let product : Product :=
      { id := db.nextProductId, name := name, price := price, stock := stock }
    ({ db with
        products := db.products ++ [product],
        nextProductId := db.nextProductId + 1 },
     Except.ok product)

/-- `CreateOrder.mutate`: reject an empty id list, look up the customer,
match the product rows whose id occurs in the list and compare the row count
with the list length, then sum the matched prices and insert the order with
`order_date or timezone.now()` (`now` models `timezone.now()`). -/
def createOrder (db : DB) (customer_id : Nat) (product_ids : List Nat)
    (order_date : Option Nat) (now : Nat) : DB × Except String Order :=
  if product_ids.isEmpty then
    (db, Except.error "At least one product must be selected")
  else
    match db.customers.find? (fun c => c.id == customer_id) with
    | none => (db, Except.error "Invalid customer ID")
    | some customer =>
        let products := db.products.filter (fun p => product_ids.contains p.id)
        if products.length != product_ids.length then
          (db, Except.error "Invalid product ID")
        else
          let total_amount : Int := (products.map Product.price).sum
          let order : Order :=
            { id := db.nextOrderId, customerId := customer.id,
              productIds := products.map Product.id,
              totalAmount := total_amount,
              orderDate := order_date.getD now }
          ({ db with
              orders := db.orders ++ [order],
              nextOrderId := db.nextOrderId + 1 },
           Except.ok order)

/-- `CRMQuery.resolve_customers`: `Customer.objects.all()`. -/
def resolve_customers (db : DB) : List Customer := db.customers

/-- `CRMQuery.resolve_products`: `Product.objects.all()`. -/
def resolve_products (db : DB) : List Product := db.products

/-- `CRMQuery.resolve_orders`: `Order.objects.all()`. -/
def resolve_orders (db : DB) : List Order := db.orders

/-- The query fields declared on `crm.schema.CRMQuery`. -/
def CRMQueryFields : List String := ["customers", "products", "orders"]

/-- `ProductFilter.filter_low_stock`: with a true value restrict to
`stock__lt=10`, otherwise return the queryset unchanged. -/
def filter_low_stock (queryset : List Product) (value : Bool) : List Product :=
  if value then queryset.filter (fun p => p.stock < 10) else queryset

/-- Modelled from the spec: the codebase defines no operation that updates a
product's price (spec §3: each entity "otherwise has no update/delete
lifecycle defined in this code"); this models such a later price change, to
state that it leaves every stored order untouched. -/
def setProductPrice (db : DB) (pid : Nat) (newPrice : Int) : DB :=
  { db with
      products := db.products.map
        (fun p => if p.id = pid then { p with price := newPrice } else p) }

end CRM

namespace AlxBackendGraphql

/-- The fields of the `CRMQuery` class defined locally in
`alx_backend_graphql/schema.py` — its body is `pass`, so it declares no
fields (and the file never imports `crm.schema`). -/
def CRMQueryFields : List String := []

/-- The fields of `alx_backend_graphql.schema.Query`, which subclasses the
local empty `CRMQuery` and adds `hello`. -/
def QueryFields : List String := CRMQueryFields ++ ["hello"]

/-- The default value of the `hello` field. -/
def hello_default : String := "Hello, GraphQL!"

/-- The root query fields of the schema built by
`graphene.Schema(query=Query)` in `alx_backend_graphql/schema.py`. -/
def schemaQueryFields : List String := QueryFields

end AlxBackendGraphql

namespace CRM

/-! ## Theorems -/

/-- The empty database, as freshly migrated: no rows, all counters at 1. -/
def dbEmpty : DB := ⟨[], [], [], 1, 1, 1⟩

/-- A small populated database: one customer and two products. -/
def dbSample : DB :=
  ⟨[⟨1, "Ann", "ann@x.com", none⟩],
   [⟨1, "P1", 150, 5⟩, ⟨2, "P2", 250, 0⟩],
   [⟨1, 1, [1], 150, 7⟩], 2, 3, 2⟩

/-- `validate_phone` raises only the string "Invalid phone format". -/
lemma validate_phone_error_eq {phone : Option String} {e : String}
    (h : validate_phone phone = Except.error e) : e = "Invalid phone format" := by
  cases phone with
  | none => simp [validate_phone] at h
  | some s =>
      by_cases hc : (s.length != 0 && !PHONE_REGEX_match s) = true
      · simp [validate_phone, hc] at h
        exact h.symm
      · simp [validate_phone, hc] at h

/-- C9: For every product queryset, the low-stock filter with value true keeps
exactly the products whose stock is strictly below 10, and with value false
returns the queryset unchanged. -/
theorem c9_filter_low_stock (queryset : List Product) :
    (∀ p : Product, p ∈ filter_low_stock queryset true ↔ p ∈ queryset ∧ p.stock < 10) ∧
    filter_low_stock queryset false = queryset := by
  constructor
  · intro p
    simp [filter_low_stock, List.mem_filter]
  · rfl

/-- C6: `createProduct` rejects a non-positive price with "Price must be
positive", rejects a negative stock with "Stock cannot be negative", and with
a positive price and non-negative stock appends a product row carrying
exactly the given name, price and stock. -/
theorem c6_create_product (db : DB) (name : String) (price stock : Int) :
    (price ≤ 0 →
      createProduct db name price stock = (db, Except.error "Price must be positive")) ∧
    (0 < price → stock < 0 →
      createProduct db name price stock = (db, Except.error "Stock cannot be negative")) ∧
    (0 < price → 0 ≤ stock →
      ∃ p : Product,
        createProduct db name price stock
          = ({ db with products := db.products ++ [p],
                        nextProductId := db.nextProductId + 1 }, Except.ok p) ∧
        p.name = name ∧ p.price = price ∧ p.stock = stock) := by
  refine ⟨fun hp => ?_, fun hp hs => ?_, fun hp hs => ?_⟩
  · unfold createProduct
    rw [if_pos hp]
  · unfold createProduct
    rw [if_neg (not_le.mpr hp), if_pos hs]
  · refine ⟨⟨db.nextProductId, name, price, stock⟩, ?_, rfl, rfl, rfl⟩
    unfold createProduct
    rw [if_neg (not_le.mpr hp), if_neg (not_lt.mpr hs)]

/-- C6 witness: a concrete successful product creation. -/
theorem c6_create_product_witness :
    (0 : Int) < 150 ∧ (0 : Int) ≤ 5 ∧
    ∃ p : Product,
      createProduct dbEmpty "Widget" 150 5
        = ({ dbEmpty with products := dbEmpty.products ++ [p],
                           nextProductId := dbEmpty.nextProductId + 1 }, Except.ok p) ∧
      p.name = "Widget" ∧ p.price = 150 ∧ p.stock = 5 :=
  ⟨by decide, by decide,
   (c6_create_product dbEmpty "Widget" 150 5).2.2 (by decide) (by decide)⟩

end CRM

namespace CRM

/-- A failing `createCustomer` leaves the state unchanged. -/
lemma createCustomer_error_db {db : DB} {name email : String} {phone : Option String}
    {e : String} (h : (createCustomer db name email phone).2 = Except.error e) :
    (createCustomer db name email phone).1 = db := by
  by_cases hdup : (db.customers.any fun c => c.email == email) = true
  · simp [createCustomer, hdup]
  · cases hv : validate_phone phone with
    | error e' => simp [createCustomer, hdup, hv]
    | ok u => simp [createCustomer, hdup, hv] at h

/-- A failing `createProduct` leaves the state unchanged. -/
lemma createProduct_error_db {db : DB} {name : String} {price stock : Int}
    {e : String} (h : (createProduct db name price stock).2 = Except.error e) :
    (createProduct db name price stock).1 = db := by
  by_cases h1 : price ≤ 0
  · simp [createProduct, h1]
  · by_cases h2 : stock < 0
    · simp [createProduct, h1, h2]
    · simp [createProduct, h1, h2] at h

/-- A failing `createOrder` leaves the state unchanged. -/
lemma createOrder_error_db {db : DB} {cid : Nat} {pids : List Nat}
    {od : Option Nat} {now : Nat} {e : String}
    (h : (createOrder db cid pids od now).2 = Except.error e) :
    (createOrder db cid pids od now).1 = db := by
  by_cases h0 : pids.isEmpty = true
  · simp [createOrder, h0]
  · cases hf : db.customers.find? (fun c => c.id == cid) with
    | none => simp [createOrder, h0, hf]
    | some customer =>
        by_cases h2 :
            (db.products.filter fun p => decide (p.id ∈ pids)).length = pids.length
        · simp [createOrder, h0, hf, h2] at h
        · simp [createOrder, h0, hf, h2]

/-- C10: whenever `createCustomer`, `createProduct` or `createOrder` raises,
the database state is unchanged — every validation check runs before any row
is inserted. -/
theorem c10_failure_leaves_db :
    (∀ (db : DB) (name email : String) (phone : Option String) (e : String),
        (createCustomer db name email phone).2 = Except.error e →
        (createCustomer db name email phone).1 = db) ∧
    (∀ (db : DB) (name : String) (price stock : Int) (e : String),
        (createProduct db name price stock).2 = Except.error e →
        (createProduct db name price stock).1 = db) ∧
    (∀ (db : DB) (cid : Nat) (pids : List Nat) (od : Option Nat) (now : Nat) (e : String),
        (createOrder db cid pids od now).2 = Except.error e →
        (createOrder db cid pids od now).1 = db) :=
  ⟨fun _ _ _ _ _ h => createCustomer_error_db h,
   fun _ _ _ _ _ h => createProduct_error_db h,
   fun _ _ _ _ _ _ h => createOrder_error_db h⟩

/-- C10 witness: a concrete duplicate-email failure leaves the state as it was. -/
theorem c10_failure_leaves_db_witness :
    (createCustomer dbSample "Bob" "ann@x.com" none).2 = Except.error "Email already exists" ∧
    (createCustomer dbSample "Bob" "ann@x.com" none).1 = dbSample :=
  ⟨by decide,
   c10_failure_leaves_db.1 dbSample "Bob" "ann@x.com" none "Email already exists" (by decide)⟩

/-- C4 counterexample: on the empty database no customer carries the email
"a@example.com", yet `createCustomer` with that fresh email and the phone
"bad" raises "Invalid phone format" instead of creating the customer, so the
claim's "otherwise a customer ... is created" clause fails here. -/
theorem c4_create_customer_counterexample :
    (∀ c ∈ dbEmpty.customers, c.email ≠ "a@example.com") ∧
    createCustomer dbEmpty "Alice" "a@example.com" (some "bad")
      = (dbEmpty, Except.error "Invalid phone format") := by
  constructor
  · intro c hc
    simp [dbEmpty] at hc
  · decide

/-- C4 amended: `createCustomer` raises "Email already exists" iff a customer
with the given email already exists; otherwise, when the phone passes
validation the customer is created with the given fields and the message
"Customer created successfully", and when the phone fails validation the call
raises "Invalid phone format" instead. -/
theorem c4_create_customer_amended (db : DB) (name email : String) (phone : Option String) :
    ((createCustomer db name email phone).2 = Except.error "Email already exists"
      ↔ ∃ c ∈ db.customers, c.email = email) ∧
    ((∀ c ∈ db.customers, c.email ≠ email) → validate_phone phone = Except.ok () →
      ∃ cust : Customer,
        createCustomer db name email phone
          = ({ db with customers := db.customers ++ [cust],
                        nextCustomerId := db.nextCustomerId + 1 },
             Except.ok (cust, "Customer created successfully")) ∧
        cust.name = name ∧ cust.email = email ∧ cust.phone = phone) ∧
    ((∀ c ∈ db.customers, c.email ≠ email) →
      validate_phone phone = Except.error "Invalid phone format" →
      createCustomer db name email phone = (db, Except.error "Invalid phone format")) := by
  refine ⟨?_, ?_, ?_⟩
  · by_cases hdup : (db.customers.any fun c => c.email == email) = true
    · constructor
      · intro _
        rw [List.any_eq_true] at hdup
        simpa using hdup
      · intro _
        simp [createCustomer, hdup]
    · constructor
      · intro he
        exfalso
        cases hv : validate_phone phone with
        | ok u => simp [createCustomer, hdup, hv] at he
        | error e' =>
            have he' : e' = "Invalid phone format" := validate_phone_error_eq hv
            subst he'
            simp [createCustomer, hdup, hv] at he
      · intro hex
        exact absurd (by rw [List.any_eq_true]; simpa using hex) hdup
  · intro hnew hv
    have hdup : ¬(db.customers.any fun c => c.email == email) = true := by
      rw [List.any_eq_true]
      rintro ⟨c, hc, hcq⟩
      exact hnew c hc (by simpa using hcq)
    refine ⟨⟨db.nextCustomerId, name, email, phone⟩, ?_, rfl, rfl, rfl⟩
    simp [createCustomer, hdup, hv]
  · intro hnew hv
    have hdup : ¬(db.customers.any fun c => c.email == email) = true := by
      rw [List.any_eq_true]
      rintro ⟨c, hc, hcq⟩
      exact hnew c hc (by simpa using hcq)
    simp [createCustomer, hdup, hv]

/-- C4 witness: a concrete fresh-email, valid-phone creation. -/
theorem c4_create_customer_amended_witness :
    ∃ cust : Customer,
      createCustomer dbSample "Bob" "bob@x.com" (some "+12345678901")
        = ({ dbSample with customers := dbSample.customers ++ [cust],
                            nextCustomerId := dbSample.nextCustomerId + 1 },
           Except.ok (cust, "Customer created successfully")) ∧
      cust.name = "Bob" ∧ cust.email = "bob@x.com" ∧ cust.phone = some "+12345678901" :=
  (c4_create_customer_amended dbSample "Bob" "bob@x.com" (some "+12345678901")).2.1
    (by decide) (by decide)

/-- C3: the schema built in `alx_backend_graphql/schema.py` exposes only the
`hello` root field — its local `CRMQuery` is empty and `crm.schema` is never
imported — while the unused `crm.schema.CRMQuery` declares the `customers`,
`products`, `orders` fields whose resolvers return all rows. -/
theorem c3_schema_query_fields :
    AlxBackendGraphql.schemaQueryFields = ["hello"] ∧
    "customers" ∉ AlxBackendGraphql.schemaQueryFields ∧
    "products" ∉ AlxBackendGraphql.schemaQueryFields ∧
    "orders" ∉ AlxBackendGraphql.schemaQueryFields ∧
    CRMQueryFields = ["customers", "products", "orders"] ∧
    ∀ db : DB, resolve_customers db = db.customers ∧
      resolve_products db = db.products ∧ resolve_orders db = db.orders :=
  ⟨rfl, by decide, by decide, by decide, rfl, fun _ => ⟨rfl, rfl, rfl⟩⟩

end CRM

namespace CRM

/-- A failing `createCustomer` carries one of the two customer messages. -/
lemma createCustomer_error_mem {db : DB} {name email : String} {phone : Option String}
    {e : String} (h : (createCustomer db name email phone).2 = Except.error e) :
    e = "Email already exists" ∨ e = "Invalid phone format" := by
  by_cases hdup : (db.customers.any fun c => c.email == email) = true
  · left
    have h2 : (createCustomer db name email phone).2 = Except.error "Email already exists" := by
      simp [createCustomer, hdup]
    exact (Except.error.inj (h2.symm.trans h)).symm
  · cases hv : validate_phone phone with
    | ok u => simp [createCustomer, hdup, hv] at h
    | error e' =>
        right
        have h2 : (createCustomer db name email phone).2 = Except.error e' := by
          simp [createCustomer, hdup, hv]
        have he : e' = e := Except.error.inj (h2.symm.trans h)
        rw [← he]
        exact validate_phone_error_eq hv

/-- A failing `createProduct` carries one of the two product messages. -/
lemma createProduct_error_mem {db : DB} {name : String} {price stock : Int}
    {e : String} (h : (createProduct db name price stock).2 = Except.error e) :
    e = "Price must be positive" ∨ e = "Stock cannot be negative" := by
  by_cases h1 : price ≤ 0
  · left
    have h2 : (createProduct db name price stock).2 = Except.error "Price must be positive" := by
      simp [createProduct, h1]
    exact (Except.error.inj (h2.symm.trans h)).symm
  · by_cases hs : stock < 0
    · right
      have h2 : (createProduct db name price stock).2
          = Except.error "Stock cannot be negative" := by
        simp [createProduct, h1, hs]
      exact (Except.error.inj (h2.symm.trans h)).symm
    · simp [createProduct, h1, hs] at h

/-- A failing `createOrder` carries one of the three order messages. -/
lemma createOrder_error_mem {db : DB} {cid : Nat} {pids : List Nat}
    {od : Option Nat} {now : Nat} {e : String}
    (h : (createOrder db cid pids od now).2 = Except.error e) :
    e = "At least one product must be selected" ∨ e = "Invalid customer ID" ∨
      e = "Invalid product ID" := by
  by_cases h0 : pids.isEmpty = true
  · left
    have h2 : (createOrder db cid pids od now).2
        = Except.error "At least one product must be selected" := by
      simp [createOrder, h0]
    exact (Except.error.inj (h2.symm.trans h)).symm
  · cases hf : db.customers.find? (fun c => c.id == cid) with
    | none =>
        right; left
        have h2 : (createOrder db cid pids od now).2 = Except.error "Invalid customer ID" := by
          simp [createOrder, h0, hf]
        exact (Except.error.inj (h2.symm.trans h)).symm
    | some cu =>
        by_cases h2 :
            (db.products.filter fun p => decide (p.id ∈ pids)).length = pids.length
        · simp [createOrder, h0, hf, h2] at h
        · right; right
          have h3 : (createOrder db cid pids od now).2 = Except.error "Invalid product ID" := by
            simp [createOrder, h0, hf, h2]
          exact (Except.error.inj (h3.symm.trans h)).symm

/-- C7: every validation failure of the three single-row mutations carries one
of the seven documented strings, and `createOrder` raises the specific string
the claim names in each of its three failure situations. -/
theorem c7_validation_error_strings :
    (∀ (db : DB) (name email : String) (phone : Option String) (e : String),
        (createCustomer db name email phone).2 = Except.error e →
        e = "Email already exists" ∨ e = "Invalid phone format") ∧
    (∀ (db : DB) (name : String) (price stock : Int) (e : String),
        (createProduct db name price stock).2 = Except.error e →
        e = "Price must be positive" ∨ e = "Stock cannot be negative") ∧
    (∀ (db : DB) (cid : Nat) (pids : List Nat) (od : Option Nat) (now : Nat) (e : String),
        (createOrder db cid pids od now).2 = Except.error e →
        e = "At least one product must be selected" ∨ e = "Invalid customer ID" ∨
          e = "Invalid product ID") ∧
    (∀ (db : DB) (cid : Nat) (od : Option Nat) (now : Nat),
        createOrder db cid [] od now
          = (db, Except.error "At least one product must be selected")) ∧
    (∀ (db : DB) (cid : Nat) (pids : List Nat) (od : Option Nat) (now : Nat),
        pids ≠ [] → (∀ c ∈ db.customers, c.id ≠ cid) →
        createOrder db cid pids od now = (db, Except.error "Invalid customer ID")) ∧
    (∀ (db : DB) (cid : Nat) (pids : List Nat) (od : Option Nat) (now : Nat),
        pids ≠ [] → (∃ c ∈ db.customers, c.id = cid) →
        (db.products.filter fun p => pids.contains p.id).length ≠ pids.length →
        createOrder db cid pids od now = (db, Except.error "Invalid product ID")) := by
  refine ⟨fun _ _ _ _ _ h => createCustomer_error_mem h,
          fun _ _ _ _ _ h => createProduct_error_mem h,
          fun _ _ _ _ _ _ h => createOrder_error_mem h,
          fun db cid od now => rfl, ?_, ?_⟩
  · intro db cid pids od now hne hno
    have hf : db.customers.find? (fun c => c.id == cid) = none := by
      rw [List.find?_eq_none]
      intro c hc
      simpa using hno c hc
    have h0 : pids.isEmpty = false := List.isEmpty_eq_false.mpr hne
    simp [createOrder, h0, hf]
  · intro db cid pids od now hne hex hlen
    have hlen' : (db.products.filter fun p => decide (p.id ∈ pids)).length ≠ pids.length := by
      simpa using hlen
    cases hf : db.customers.find? (fun c => c.id == cid) with
    | none =>
        rw [List.find?_eq_none] at hf
        obtain ⟨c, hc, hceq⟩ := hex
        exact absurd (by simpa using hceq) (hf c hc)
    | some cu =>
        have h0 : pids.isEmpty = false := List.isEmpty_eq_false.mpr hne
        simp [createOrder, h0, hf, hlen']

/-- C7 witness: a duplicated product id makes the matched-row count differ
from the list length, raising "Invalid product ID". -/
theorem c7_validation_error_strings_witness :
    createOrder dbSample 1 [1, 1] none 42 = (dbSample, Except.error "Invalid product ID") :=
  c7_validation_error_strings.2.2.2.2.2 dbSample 1 [1, 1] none 42
    (by decide) (by decide) (by decide)

/-- C1: when the product-id list is non-empty, the customer exists, and the
count of matched product rows equals the list length, `createOrder` succeeds
and the created order's total is the sum of the matched products' prices and
its date is the supplied value or, when none is supplied, the current time. -/
theorem c1_create_order_total (db : DB) (cid : Nat) (pids : List Nat)
    (od : Option Nat) (now : Nat)
    (hne : pids ≠ [])
    (hcust : ∃ c ∈ db.customers, c.id = cid)
    (hcount : (db.products.filter fun p => pids.contains p.id).length = pids.length) :
    ∃ o : Order,
      createOrder db cid pids od now
        = ({ db with orders := db.orders ++ [o], nextOrderId := db.nextOrderId + 1 },
           Except.ok o) ∧
      o.totalAmount
        = ((db.products.filter fun p => pids.contains p.id).map Product.price).sum ∧
      o.orderDate = od.getD now := by
  have hsome : ∃ cu, db.customers.find? (fun c => c.id == cid) = some cu := by
    cases hfind : db.customers.find? (fun c => c.id == cid) with
    | some cu => exact ⟨cu, rfl⟩
    | none =>
        rw [List.find?_eq_none] at hfind
        obtain ⟨c, hc, hceq⟩ := hcust
        exact absurd (by simpa using hceq) (hfind c hc)
  obtain ⟨cu, hfind⟩ := hsome
  have hcount' : (db.products.filter fun p => decide (p.id ∈ pids)).length = pids.length := by
    simpa using hcount
  have h0 : pids.isEmpty = false := List.isEmpty_eq_false.mpr hne
  refine ⟨⟨db.nextOrderId, cu.id,
           (db.products.filter fun p => pids.contains p.id).map Product.id,
           ((db.products.filter fun p => pids.contains p.id).map Product.price).sum,
           od.getD now⟩, ?_, rfl, rfl⟩
  simp [createOrder, h0, hfind, hcount']

/-- C1 witness: an order over both sample products totals 400 and takes the
current time as its date. -/
theorem c1_create_order_total_witness :
    ∃ o : Order,
      createOrder dbSample 1 [1, 2] none 42
        = ({ dbSample with orders := dbSample.orders ++ [o],
                            nextOrderId := dbSample.nextOrderId + 1 },
           Except.ok o) ∧
      o.totalAmount
        = ((dbSample.products.filter fun p => [1, 2].contains p.id).map Product.price).sum ∧
      o.orderDate = (none : Option Nat).getD 42 :=
  c1_create_order_total dbSample 1 [1, 2] none 42 (by decide) (by decide) (by decide)

end CRM

namespace CRM

/-- One bulk row never touches the orders table. -/
lemma bulkRow_orders (db : DB) (data : CustomerInput) :
    (bulkRow db data).1.orders = db.orders := by
  by_cases hdup : (db.customers.any fun c => c.email == data.email) = true
  · simp [bulkRow, hdup]
  · cases hv : validate_phone data.phone with
    | error e => simp [bulkRow, hdup, hv]
    | ok u => simp [bulkRow, hdup, hv]

/-- The bulk loop never touches the orders table. -/
lemma bulkLoop_orders (input : List CustomerInput) :
    ∀ (db : DB) (idx : Nat), (bulkLoop db idx input).1.orders = db.orders := by
  induction input with
  | nil => intro db idx; rfl
  | cons data rest ih =>
      intro db idx
      cases hr : bulkRow db data with
      | mk db1 r =>
          have h1 : db1.orders = db.orders := by
            have h2 := bulkRow_orders db data
            rw [hr] at h2
            exact h2
          cases r with
          | ok c => simp [bulkLoop, hr, ih, h1]
          | error e => simp [bulkLoop, hr, ih, h1]

/-- `createCustomer` never touches the orders table. -/
lemma createCustomer_orders (db : DB) (name email : String) (phone : Option String) :
    (createCustomer db name email phone).1.orders = db.orders := by
  by_cases hdup : (db.customers.any fun c => c.email == email) = true
  · simp [createCustomer, hdup]
  · cases hv : validate_phone phone with
    | error e => simp [createCustomer, hdup, hv]
    | ok u => simp [createCustomer, hdup, hv]

/-- `createProduct` never touches the orders table. -/
lemma createProduct_orders (db : DB) (name : String) (price stock : Int) :
    (createProduct db name price stock).1.orders = db.orders := by
  by_cases h1 : price ≤ 0
  · simp [createProduct, h1]
  · by_cases hs : stock < 0
    · simp [createProduct, h1, hs]
    · simp [createProduct, h1, hs]

/-- `createOrder` either leaves the orders table unchanged or appends one row. -/
lemma createOrder_orders (db : DB) (cid : Nat) (pids : List Nat)
    (od : Option Nat) (now : Nat) :
    (createOrder db cid pids od now).1.orders = db.orders ∨
    ∃ o : Order, (createOrder db cid pids od now).1.orders = db.orders ++ [o] := by
  by_cases h0 : pids.isEmpty = true
  · left; simp [createOrder, h0]
  · cases hf : db.customers.find? (fun c => c.id == cid) with
    | none => left; simp [createOrder, h0, hf]
    | some cu =>
        by_cases h2 :
            (db.products.filter fun p => decide (p.id ∈ pids)).length = pids.length
        · right
          refine ⟨⟨db.nextOrderId, cu.id,
                   (db.products.filter fun p => decide (p.id ∈ pids)).map Product.id,
                   ((db.products.filter fun p => decide (p.id ∈ pids)).map Product.price).sum,
                   od.getD now⟩, ?_⟩
          simp [createOrder, h0, hf, h2]
        · left; simp [createOrder, h0, hf, h2]

/-- C8: an order's `totalAmount` is stored at creation and no operation of
this codebase rewrites stored orders — each mutation leaves every existing
order row (hence its total) in place, and a later product price change
(modelled, since the code defines none) does not touch the orders table. -/
theorem c8_order_total_frame :
    (∀ (db : DB) (pid : Nat) (q : Int), (setProductPrice db pid q).orders = db.orders) ∧
    (∀ (db : DB) (name email : String) (phone : Option String),
        (createCustomer db name email phone).1.orders = db.orders) ∧
    (∀ (db : DB) (input : List CustomerInput),
        (bulkCreateCustomers db input).1.orders = db.orders) ∧
    (∀ (db : DB) (name : String) (price stock : Int),
        (createProduct db name price stock).1.orders = db.orders) ∧
    (∀ (db : DB) (cid : Nat) (pids : List Nat) (od : Option Nat) (now : Nat),
        ∀ o ∈ db.orders, o ∈ (createOrder db cid pids od now).1.orders) := by
  refine ⟨fun db pid q => rfl, createCustomer_orders,
          fun db input => bulkLoop_orders input db 0, createProduct_orders, ?_⟩
  intro db cid pids od now o ho
  rcases createOrder_orders db cid pids od now with h | ⟨o', h⟩
  · rw [h]; exact ho
  · rw [h]; exact List.mem_append_left _ ho

/-- C8 witness: the existing sample order survives a new order creation
with its stored total intact. -/
theorem c8_order_total_frame_witness :
    (⟨1, 1, [1], 150, 7⟩ : Order) ∈ (createOrder dbSample 1 [2] none 9).1.orders :=
  c8_order_total_frame.2.2.2.2 dbSample 1 [2] none 9 ⟨1, 1, [1], 150, 7⟩ (by decide)

end CRM

namespace CRM

/-- The claim's wording of the first accepted format: a leading plus followed
by 10 to 15 digits (stated independently of `PHONE_REGEX`, to be compared
with it). -/
def intlSpec (s : String) : Prop :=
  ∃ ds : List Char, s.data = '+' :: ds ∧ 10 ≤ ds.length ∧ ds.length ≤ 15 ∧
    ∀ c ∈ ds, c.isDigit = true

/-- The claim's wording of the second accepted format: three digits, a dash,
three digits, a dash, four digits (stated independently of `PHONE_REGEX`). -/
def dashedSpec (s : String) : Prop :=
  ∃ a b c d e f g h i j : Char,
    s.data = [a, b, c, '-', d, e, f, '-', g, h, i, j] ∧
    ∀ x ∈ [a, b, c, d, e, f, g, h, i, j], x.isDigit = true

/-- The amended claim's first shape: a leading plus followed by 10 to 15
Unicode decimal digits. -/
def pyIntlSpec (cs : List Char) : Prop :=
  ∃ ds : List Char, cs = '+' :: ds ∧ 10 ≤ ds.length ∧ ds.length ≤ 15 ∧
    ∀ c ∈ ds, isREDigit c = true

/-- The amended claim's second shape: three Unicode decimal digits, a dash,
three digits, a dash, four digits. -/
def pyDashedSpec (cs : List Char) : Prop :=
  ∃ a b c d e f g h i j : Char,
    cs = [a, b, c, '-', d, e, f, '-', g, h, i, j] ∧
    ∀ x ∈ [a, b, c, d, e, f, g, h, i, j], isREDigit x = true

/-- The amended claim's acceptance predicate: one of the two shapes followed
by at most one trailing newline (Python's `$` also matches just before a
final newline). -/
def pyAccepted (s : String) : Prop :=
  ∃ body tail : List Char, s.data = body ++ tail ∧ (tail = [] ∨ tail = ['\n']) ∧
    (pyIntlSpec body ∨ pyDashedSpec body)

/-- The first regex alternative accepts exactly the plus-then-10-to-15-digit
strings. -/
lemma phoneIntl_iff (cs : List Char) :
    phoneIntl cs = true ↔ pyIntlSpec cs := by
  unfold pyIntlSpec
  cases cs with
  | nil => simp [phoneIntl]
  | cons c rest =>
      constructor
      · intro hp
        have hp' : c = '+' ∧ 10 ≤ rest.length ∧ rest.length ≤ 15 ∧
            ∀ x ∈ rest, isREDigit x = true := by
          simpa [phoneIntl, Bool.and_eq_true, List.all_eq_true, and_assoc] using hp
        exact ⟨rest, by rw [hp'.1], hp'.2.1, hp'.2.2.1, hp'.2.2.2⟩
      · rintro ⟨ds, hds, h10, h15, hdig⟩
        injection hds with hc hrest
        subst hc
        subst hrest
        simp [phoneIntl, List.all_eq_true, h10, h15]
        exact hdig

/-- The second regex alternative accepts exactly the 3-dash-3-dash-4 digit
strings. -/
lemma phoneDashed_iff (cs : List Char) :
    phoneDashed cs = true ↔ pyDashedSpec cs := by
  unfold pyDashedSpec
  constructor
  · intro hp
    unfold phoneDashed at hp
    split at hp
    · rename_i a b c d e f g h i j k l
      have hp' : isREDigit a = true ∧ isREDigit b = true ∧ isREDigit c = true ∧ d = '-' ∧
          isREDigit e = true ∧ isREDigit f = true ∧ isREDigit g = true ∧ h = '-' ∧
          isREDigit i = true ∧ isREDigit j = true ∧ isREDigit k = true ∧
          isREDigit l = true := by
        simpa [Bool.and_eq_true, and_assoc] using hp
      obtain ⟨h1, h2, h3, hd, h4, h5, h6, hh, h7, h8, h9, h10⟩ := hp'
      subst hd
      subst hh
      refine ⟨a, b, c, e, f, g, i, j, k, l, rfl, ?_⟩
      intro x hx
      simp only [List.mem_cons, List.not_mem_nil, or_false] at hx
      rcases hx with rfl | rfl | rfl | rfl | rfl | rfl | rfl | rfl | rfl | rfl <;> assumption
    · simp at hp
  · rintro ⟨a, b, c, d, e, f, g, h, i, j, rfl, hdig⟩
    have h1 := hdig a (by simp)
    have h2 := hdig b (by simp)
    have h3 := hdig c (by simp)
    have h4 := hdig d (by simp)
    have h5 := hdig e (by simp)
    have h6 := hdig f (by simp)
    have h7 := hdig g (by simp)
    have h8 := hdig h (by simp)
    have h9 := hdig i (by simp)
    have h10 := hdig j (by simp)
    simp [phoneDashed, h1, h2, h3, h4, h5, h6, h7, h8, h9, h10]

/-- A Unicode decimal digit is never a newline. -/
lemma isREDigit_ne_newline {x : Char} (hx : isREDigit x = true) : x ≠ '\n' := by
  intro hxe
  subst hxe
  exact absurd hx (by decide)

/-- A string of either accepted shape never ends in a newline (both
alternatives end in `\d`). -/
lemma shape_getLast_ne_newline {cs : List Char}
    (hs : pyIntlSpec cs ∨ pyDashedSpec cs) : cs.getLast? ≠ some '\n' := by
  rcases hs with ⟨ds, rfl, h10, -, hds⟩ | ⟨a, b, c, d, e, f, g, h, i, j, rfl, hds⟩
  · have hne : ds ≠ [] := by
      intro hnil
      rw [hnil] at h10
      simp at h10
    rw [List.getLast?_eq_getLast _ (List.cons_ne_nil '+' ds), List.getLast_cons hne]
    intro hcon
    exact isREDigit_ne_newline (hds _ (List.getLast_mem hne)) (Option.some.inj hcon)
  · intro hcon
    have h12 : ([a, b, c, '-', d, e, f, '-', g, h, i, j] : List Char).getLast? = some j :=
      rfl
    rw [h12] at hcon
    exact isREDigit_ne_newline (hds j (by simp)) (Option.some.inj hcon)

/-- `PHONE_REGEX.match` succeeds exactly on the amended claim's language:
one of the two shapes with at most one trailing newline. -/
lemma PHONE_REGEX_match_iff (s : String) :
    PHONE_REGEX_match s = true ↔ pyAccepted s := by
  constructor
  · intro hm
    unfold PHONE_REGEX_match at hm
    rw [Bool.or_eq_true, phoneIntl_iff, phoneDashed_iff] at hm
    unfold bodyOf at hm
    unfold pyAccepted
    by_cases hlast : s.data.getLast? = some '\n'
    · have hne : s.data ≠ [] := by
        intro hnil
        rw [hnil] at hlast
        simp at hlast
      have hsplit : s.data = s.data.dropLast ++ ['\n'] := by
        have hg : s.data.getLast hne = '\n' := by
          have heq := List.getLast?_eq_getLast s.data hne
          rw [heq] at hlast
          exact Option.some.inj hlast
        conv_lhs => rw [← List.dropLast_append_getLast hne]
        rw [hg]
      refine ⟨s.data.dropLast, ['\n'], hsplit, Or.inr rfl, ?_⟩
      rwa [if_pos hlast] at hm
    · refine ⟨s.data, [], by simp, Or.inl rfl, ?_⟩
      rwa [if_neg hlast] at hm
  · intro hacc
    unfold pyAccepted at hacc
    obtain ⟨body, tail, hsplit, htail, hshape⟩ := hacc
    unfold PHONE_REGEX_match
    rw [Bool.or_eq_true, phoneIntl_iff, phoneDashed_iff]
    unfold bodyOf
    rcases htail with rfl | rfl
    · rw [List.append_nil] at hsplit
      rw [hsplit, if_neg (shape_getLast_ne_newline hshape)]
      exact hshape
    · rw [hsplit,
          if_pos (by simp : (body ++ ['\n'] : List Char).getLast? = some '\n'),
          List.dropLast_concat]
      exact hshape

end CRM

namespace CRM

/-- C5 counterexample: "123-456-7890\n" is non-empty and has neither claimed
shape, yet the program accepts it instead of raising "Invalid phone format",
because Python's `$` also matches just before a trailing newline. -/
theorem c5_validate_phone_counterexample :
    "123-456-7890\n" ≠ "" ∧
    ¬ intlSpec "123-456-7890\n" ∧
    ¬ dashedSpec "123-456-7890\n" ∧
    validate_phone (some "123-456-7890\n") = Except.ok () := by
  refine ⟨by decide, ?_, ?_, by decide⟩
  · rintro ⟨ds, hds, -, -, -⟩
    have hdata : ("123-456-7890\n").data
        = ['1', '2', '3', '-', '4', '5', '6', '-', '7', '8', '9', '0', '\n'] := rfl
    rw [hdata] at hds
    injection hds with hc hrest
    exact absurd hc (by decide)
  · rintro ⟨a, b, c, d, e, f, g, h, i, j, hds, -⟩
    have hdata : ("123-456-7890\n").data
        = ['1', '2', '3', '-', '4', '5', '6', '-', '7', '8', '9', '0', '\n'] := rfl
    rw [hdata] at hds
    have hlen := congrArg List.length hds
    simp at hlen

/-- C5 amended: an absent phone is accepted, the two example values are
accepted, and for every non-empty phone string `validate_phone` accepts it
exactly when it is one of the two shapes — `\d` matching any Unicode decimal
digit — followed by at most one trailing newline, raising
"Invalid phone format" on every other non-empty value. -/
theorem c5_validate_phone_amended (s : String) (hne : s ≠ "") :
    validate_phone none = Except.ok () ∧
    validate_phone (some "+12345678901") = Except.ok () ∧
    validate_phone (some "123-456-7890") = Except.ok () ∧
    (validate_phone (some s) = Except.ok () ↔ pyAccepted s) ∧
    (¬ pyAccepted s →
      validate_phone (some s) = Except.error "Invalid phone format") := by
  have hdata : s.data ≠ [] := by
    intro h
    exact hne (String.ext h)
  have hlen : (s.length != 0) = true := by
    rw [bne_iff_ne]
    intro h
    exact hdata (List.length_eq_zero.mp h)
  refine ⟨rfl, by decide, by decide, ?_, ?_⟩
  · by_cases hm : PHONE_REGEX_match s = true
    · have hv : validate_phone (some s) = Except.ok () := by
        simp [validate_phone, hm]
      rw [hv]
      simp only [true_iff]
      exact (PHONE_REGEX_match_iff s).mp hm
    · have hm' : PHONE_REGEX_match s = false := by
        rwa [Bool.not_eq_true] at hm
      have hv : validate_phone (some s) = Except.error "Invalid phone format" := by
        simp [validate_phone, hlen, hm']
      rw [hv]
      constructor
      · intro h
        exact absurd h (by simp)
      · intro hspec
        exact absurd ((PHONE_REGEX_match_iff s).mpr hspec) hm
  · intro hns
    have hm' : PHONE_REGEX_match s = false := by
      by_cases hm : PHONE_REGEX_match s = true
      · exact absurd ((PHONE_REGEX_match_iff s).mp hm) hns
      · rwa [Bool.not_eq_true] at hm
    simp [validate_phone, hlen, hm']

/-- C5 witness: the amended theorem applied at the concrete accepted value
"+12345678901" yields that it is in the amended language. -/
theorem c5_validate_phone_amended_witness :
    pyAccepted "+12345678901" :=
  (c5_validate_phone_amended "+12345678901" (by decide)).2.2.2.1.mp (by decide)

end CRM

namespace CRM

/-- One bulk row either inserts exactly one customer (appended to the
customers table) or fails leaving the state unchanged. -/
lemma bulkRow_cases (db : DB) (data : CustomerInput) :
    (∃ db1 c, bulkRow db data = (db1, Except.ok c) ∧
        db1.customers = db.customers ++ [c]) ∨
    (∃ e, bulkRow db data = (db, Except.error e)) := by
  by_cases hdup : (db.customers.any fun c => c.email == data.email) = true
  · right
    exact ⟨"Email already exists", by simp [bulkRow, hdup]⟩
  · cases hv : validate_phone data.phone with
    | error e =>
        right
        exact ⟨e, by simp [bulkRow, hdup, hv]⟩
    | ok u =>
        left
        refine ⟨{ db with
                   customers := db.customers
                     ++ [⟨db.nextCustomerId, data.name, data.email, data.phone⟩],
                   nextCustomerId := db.nextCustomerId + 1 },
                ⟨db.nextCustomerId, data.name, data.email, data.phone⟩, ?_, rfl⟩
        simp [bulkRow, hdup, hv]

/-- The bulk loop invariant: the created customers are appended to the
incoming customers table, and each input row either succeeded at its turn
(its customer is among the created ones) or failed at its turn (its error is
recorded as `Row <one-based index>: <message>`). -/
lemma bulkLoop_customers_spec (input : List CustomerInput) :
    ∀ (db : DB) (idx : Nat),
      (bulkLoop db idx input).1.customers
          = db.customers ++ (bulkLoop db idx input).2.1 ∧
      ∀ (i : Nat) (hi : i < input.length),
        (∃ dbx c, bulkRow (bulkDBAt db (input.take i)) (input.get ⟨i, hi⟩)
              = (dbx, Except.ok c) ∧ c ∈ (bulkLoop db idx input).2.1) ∨
        (∃ dbx e, bulkRow (bulkDBAt db (input.take i)) (input.get ⟨i, hi⟩)
              = (dbx, Except.error e) ∧
            ("Row " ++ toString (idx + i + 1) ++ ": " ++ e)
              ∈ (bulkLoop db idx input).2.2) := by
  induction input with
  | nil =>
      intro db idx
      exact ⟨by simp [bulkLoop], fun i hi => absurd hi (by simp)⟩
  | cons data rest ih =>
      intro db idx
      rcases bulkRow_cases db data with ⟨db1, c0, hr, hcust⟩ | ⟨e0, hr⟩
      · have hL : bulkLoop db idx (data :: rest)
            = ((bulkLoop db1 (idx + 1) rest).1,
               c0 :: (bulkLoop db1 (idx + 1) rest).2.1,
               (bulkLoop db1 (idx + 1) rest).2.2) := by
          simp only [bulkLoop]
          rw [hr]
        refine ⟨?_, ?_⟩
        · rw [hL, (ih db1 (idx + 1)).1, hcust]
          simp
        · intro i hi
          cases i with
          | zero =>
              left
              refine ⟨db1, c0, hr, ?_⟩
              rw [hL]
              exact List.mem_cons_self _ _
          | succ i' =>
              have hi' : i' < rest.length := by simpa using hi
              have hdbat : bulkDBAt db ((data :: rest).take (i' + 1))
                  = bulkDBAt db1 (rest.take i') := by
                show bulkDBAt (bulkRow db data).1 (rest.take i')
                    = bulkDBAt db1 (rest.take i')
                rw [hr]
              rcases (ih db1 (idx + 1)).2 i' hi' with
                ⟨dbx, c, hbr, hmem⟩ | ⟨dbx, e, hbr, hmem⟩
              · left
                refine ⟨dbx, c, ?_, ?_⟩
                · rw [hdbat]
                  exact hbr
                · rw [hL]
                  exact List.mem_cons_of_mem _ hmem
              · right
                refine ⟨dbx, e, ?_, ?_⟩
                · rw [hdbat]
                  exact hbr
                · rw [hL]
                  have harith : idx + (i' + 1) + 1 = idx + 1 + i' + 1 := by omega
                  rw [harith]
                  exact hmem
      · have hL : bulkLoop db idx (data :: rest)
            = ((bulkLoop db (idx + 1) rest).1,
               (bulkLoop db (idx + 1) rest).2.1,
               ("Row " ++ toString (idx + 1) ++ ": " ++ e0)
                 :: (bulkLoop db (idx + 1) rest).2.2) := by
          simp only [bulkLoop]
          rw [hr]
        refine ⟨?_, ?_⟩
        · rw [hL]
          exact (ih db (idx + 1)).1
        · intro i hi
          cases i with
          | zero =>
              right
              refine ⟨db, e0, hr, ?_⟩
              rw [hL]
              exact List.mem_cons_self _ _
          | succ i' =>
              have hi' : i' < rest.length := by simpa using hi
              have hdbat : bulkDBAt db ((data :: rest).take (i' + 1))
                  = bulkDBAt db (rest.take i') := by
                show bulkDBAt (bulkRow db data).1 (rest.take i')
                    = bulkDBAt db (rest.take i')
                rw [hr]
              rcases (ih db (idx + 1)).2 i' hi' with
                ⟨dbx, c, hbr, hmem⟩ | ⟨dbx, e, hbr, hmem⟩
              · left
                refine ⟨dbx, c, ?_, ?_⟩
                · rw [hdbat]
                  exact hbr
                · rw [hL]
                  exact hmem
              · right
                refine ⟨dbx, e, ?_, ?_⟩
                · rw [hdbat]
                  exact hbr
                · rw [hL]
                  have harith : idx + (i' + 1) + 1 = idx + 1 + i' + 1 := by omega
                  rw [harith]
                  exact List.mem_cons_of_mem _ hmem

/-- C2: a bulk call never raises (it is a total function); the customers
created by its valid rows are appended to the table — they persist because
every per-row exception is caught inside the `transaction.atomic()` block, so
the transaction commits — and each row either succeeded at its turn, its
customer being among the returned ones, or contributed the per-row error
string `Row <one-based index>: <message>`. -/
theorem c2_bulk_create_customers (db : DB) (input : List CustomerInput) :
    (bulkCreateCustomers db input).1.customers
        = db.customers ++ (bulkCreateCustomers db input).2.1 ∧
    ∀ (i : Nat) (hi : i < input.length),
      (∃ dbx c, bulkRow (bulkDBAt db (input.take i)) (input.get ⟨i, hi⟩)
            = (dbx, Except.ok c) ∧ c ∈ (bulkCreateCustomers db input).2.1) ∨
      (∃ dbx e, bulkRow (bulkDBAt db (input.take i)) (input.get ⟨i, hi⟩)
            = (dbx, Except.error e) ∧
          ("Row " ++ toString (i + 1) ++ ": " ++ e)
            ∈ (bulkCreateCustomers db input).2.2) := by
  have h := bulkLoop_customers_spec input db 0
  refine ⟨h.1, ?_⟩
  intro i hi
  rcases h.2 i hi with ⟨dbx, c, hbr, hmem⟩ | ⟨dbx, e, hbr, hmem⟩
  · exact Or.inl ⟨dbx, c, hbr, hmem⟩
  · refine Or.inr ⟨dbx, e, hbr, ?_⟩
    rwa [Nat.zero_add] at hmem

/-- Input for the C2 witness: one fresh row and one duplicate-email row. -/
def inpW : List CustomerInput :=
  [⟨"Bob", "bob@x.com", none⟩, ⟨"Dup", "ann@x.com", none⟩]

/-- C2 witness: on the sample database, the duplicate-email second row yields
the error string "Row 2: Email already exists". -/
theorem c2_bulk_create_customers_witness :
    "Row 2: Email already exists" ∈ (bulkCreateCustomers dbSample inpW).2.2 := by
  have h := (c2_bulk_create_customers dbSample inpW).2 1 (by decide)
  have heval : bulkRow (bulkDBAt dbSample (inpW.take 1)) (inpW.get ⟨1, by decide⟩)
      = (bulkDBAt dbSample (inpW.take 1), Except.error "Email already exists") := by
    decide
  rcases h with ⟨dbx, c, hbr, -⟩ | ⟨dbx, e, hbr, hmem⟩
  · rw [heval] at hbr
    simp at hbr
  · rw [heval] at hbr
    have he : e = "Email already exists" :=
      (Except.error.inj (congrArg Prod.snd hbr)).symm
    subst he
    exact hmem

end CRM
